import Mathlib

/-!
Shallow embedding of the rsmpi datatype/buffer abstraction (src/datatype.rs)
and of the collective protocol layer (src/collective/mod.rs), together with
theorems settling the specification claims against this embedding.

Conventions of the embedding:
- the MPI communication count type (`Count`, a C `int`, i.e. `i32`) is
  embedded as `Int`; the width bound `2147483647` appears explicitly where
  the code converts a `usize` length into a `Count`;
- raw runtime handles (`MPI_Datatype`, `MPI_Request`, pointers) are embedded
  as small inductive types with an explicit null sentinel;
- calls into the runtime boundary (`ffi::MPI_*`) are embedded as an emitted
  trace of call records, and a Rust `assert!`/`assert_eq!` failure or an
  `expect` panic is embedded as an explicit non-`ok` outcome.
-/

/-- Embeds the MPI communication count type `Count` (a C `int`). Values are
embedded as unbounded integers; the `i32` width bound is tracked explicitly
where the code performs a checked conversion. -/
abbrev Count := Int

/-- Largest value representable in the MPI `Count` type, `i32::MAX`. -/
def countMax : Nat := 2147483647

/-- Embeds raw MPI datatype handles (`MPI_Datatype`): the null sentinel
`RSMPI_DATATYPE_NULL`, the system datatypes of the `Equivalence` registry,
and runtime-allocated user descriptors identified by an allocation id. -/
inductive MPI_Datatype where
  | null
  | float
  | double
  | int8
  | int16
  | int32
  | int64
  | uint8
  | uint16
  | uint32
  | uint64
  | user (id : Nat)
deriving DecidableEq

/-- Embeds the closed set of Rust scalar types for which the `Equivalence`
registry provides a system datatype (`equivalent_system_datatype!` lines). -/
inductive Scalar where
  | f32
  | f64
  | i8
  | i16
  | i32
  | i64
  | u8
  | u16
  | u32
  | u64
  | usize
  | isize
deriving DecidableEq

/-- Embeds `Equivalence::equivalent_datatype`: the system datatype associated
with each scalar type; `usize` and `isize` map to the 64-bit fixed-width
types (the `target_pointer_width = "64"` configuration). -/
def equivalent_datatype : Scalar → MPI_Datatype
  | .f32 => .float
  | .f64 => .double
  | .i8 => .int8
  | .i16 => .int16
  | .i32 => .int32
  | .i64 => .int64
  | .u8 => .uint8
  | .u16 => .uint16
  | .u32 => .uint32
  | .u64 => .uint64
  | .usize => .uint64
  | .isize => .int64

/-- Embeds `impl Collection for T where T: Equivalence`: a single scalar
value counts as one element. -/
def scalar_count : Count := 1

/-- Embeds `impl Collection for [T]`: `self.len().value_as()` converts the
slice length to a `Count` and panics (`expect`) when the length does not fit
into an `i32`; `none` embeds the panic. -/
def slice_count (len : Nat) : Option Count :=
  if len ≤ countMax then some (len : Int) else none

/-- C3: the `count()` of a single scalar value is 1; the `count()` of a slice
of length N is exactly N whenever N fits the `i32` communication count width,
and for larger N the derivation panics instead of truncating. -/
theorem claim_C3 :
    scalar_count = 1 ∧
    (∀ n : Nat, n ≤ countMax → slice_count n = some (n : Int)) ∧
    (∀ n : Nat, countMax < n → slice_count n = none) := by
  refine ⟨rfl, fun n hn => ?_, fun n hn => ?_⟩
  · simp [slice_count, hn]
  · simp [slice_count, Nat.not_le.mpr hn]

/-- Witness for C3 at concrete lengths: length 3 is representable and counts
as 3; length `i32::MAX + 1` makes the derivation fail. -/
theorem claim_C3_witness :
    slice_count 3 = some 3 ∧ slice_count 2147483648 = none :=
  ⟨claim_C3.2.1 3 (by decide), claim_C3.2.2 2147483648 (by decide)⟩

/-- Embeds the calls the datatype layer issues at the runtime boundary
(`ffi::MPI_Type_*`). Each type-constructing call records its arguments and the
id of the descriptor the runtime allocates into the output parameter. -/
inductive MpiCall where
  | type_contiguous (count : Count) (oldtype : MPI_Datatype) (newtype : Nat)
  | type_vector (count blocklength stride : Count) (oldtype : MPI_Datatype)
      (newtype : Nat)
  | type_hvector (count blocklength : Count) (stride : Int)
      (oldtype : MPI_Datatype) (newtype : Nat)
  | type_indexed (count : Count) (blocklengths displacements : List Count)
      (oldtype : MPI_Datatype) (newtype : Nat)
  | type_create_hindexed (count : Count) (blocklengths : List Count)
      (displacements : List Int) (oldtype : MPI_Datatype) (newtype : Nat)
  | type_create_indexed_block (count blocklength : Count)
      (displacements : List Count) (oldtype : MPI_Datatype) (newtype : Nat)
  | type_create_hindexed_block (count blocklength : Count)
      (displacements : List Int) (oldtype : MPI_Datatype) (newtype : Nat)
  | type_commit (t : Nat)
  | type_free (t : Nat)
deriving DecidableEq

/-- Embeds how a construction or destruction attempt ends: normal return, a
failed `assert!`/`assert_eq!`, or a panic from the checked `Count`
conversion (`expect`). -/
inductive Outcome where
  | ok
  | assertFail
  | countPanic
deriving DecidableEq

/-- Embeds the observable effect of one call into the datatype layer: the
runtime-boundary calls it issued, in program order up to the point where it
returned or aborted, and how it ended. -/
structure FfiTrace where
  calls : List MpiCall
  outcome : Outcome
deriving DecidableEq

/-- Embeds `UserDatatype::contiguous`: `MPI_Type_contiguous` followed by
`MPI_Type_commit` on the freshly allocated descriptor `new`. -/
def UserDatatype.contiguous (count : Count) (oldtype : MPI_Datatype)
    (new : Nat) : FfiTrace :=
  ⟨[.type_contiguous count oldtype new, .type_commit new], .ok⟩

/-- Embeds `UserDatatype::vector`: `MPI_Type_vector` followed by
`MPI_Type_commit`. -/
def UserDatatype.vector (count blocklength stride : Count)
    (oldtype : MPI_Datatype) (new : Nat) : FfiTrace :=
  ⟨[.type_vector count blocklength stride oldtype new, .type_commit new], .ok⟩

/-- Embeds `UserDatatype::heterogeneous_vector`: `MPI_Type_hvector` (stride in
bytes) followed by `MPI_Type_commit`. -/
def UserDatatype.heterogeneous_vector (count blocklength : Count)
    (stride : Int) (oldtype : MPI_Datatype) (new : Nat) : FfiTrace :=
  ⟨[.type_hvector count blocklength stride oldtype new, .type_commit new], .ok⟩

/-- Embeds `UserDatatype::indexed`: first
`assert_eq!(blocklengths.len(), displacements.len())`, then the checked
conversion `blocklengths.count()`, then `MPI_Type_indexed` and
`MPI_Type_commit`. Both failure modes abort before any runtime call. -/
def UserDatatype.indexed (blocklengths displacements : List Count)
    (oldtype : MPI_Datatype) (new : Nat) : FfiTrace :=
  if blocklengths.length = displacements.length then
    match slice_count blocklengths.length with
    | some c =>
        ⟨[.type_indexed c blocklengths displacements oldtype new,
          .type_commit new], .ok⟩
    | none => ⟨[], .countPanic⟩
  else ⟨[], .assertFail⟩

/-- Embeds `UserDatatype::heterogeneous_indexed`: like `indexed` but with byte
displacements and `MPI_Type_create_hindexed`. -/
def UserDatatype.heterogeneous_indexed (blocklengths : List Count)
    (displacements : List Int) (oldtype : MPI_Datatype) (new : Nat) :
    FfiTrace :=
  if blocklengths.length = displacements.length then
    match slice_count blocklengths.length with
    | some c =>
        ⟨[.type_create_hindexed c blocklengths displacements oldtype new,
          .type_commit new], .ok⟩
    | none => ⟨[], .countPanic⟩
  else ⟨[], .assertFail⟩

/-- Embeds `UserDatatype::indexed_block`: the checked conversion
`displacements.count()`, then `MPI_Type_create_indexed_block` and
`MPI_Type_commit`. -/
def UserDatatype.indexed_block (blocklength : Count)
    (displacements : List Count) (oldtype : MPI_Datatype) (new : Nat) :
    FfiTrace :=
  match slice_count displacements.length with
  | some c =>
      ⟨[.type_create_indexed_block c blocklength displacements oldtype new,
        .type_commit new], .ok⟩
  | none => ⟨[], .countPanic⟩

/-- Embeds `UserDatatype::heterogeneous_indexed_block`: like `indexed_block`
but with byte displacements and `MPI_Type_create_hindexed_block`. -/
def UserDatatype.heterogeneous_indexed_block (blocklength : Count)
    (displacements : List Int) (oldtype : MPI_Datatype) (new : Nat) :
    FfiTrace :=
  match slice_count displacements.length with
  | some c =>
      ⟨[.type_create_hindexed_block c blocklength displacements oldtype new,
        .type_commit new], .ok⟩
  | none => ⟨[], .countPanic⟩

/-- Embeds `impl Drop for UserDatatype`: one `MPI_Type_free` on the owned
handle `t`, then `assert_eq!(self.0, ffi::RSMPI_DATATYPE_NULL)`. The
parameter `freed` is the handle value the runtime leaves in place after the
free call. -/
def UserDatatype.drop (t : Nat) (freed : MPI_Datatype) : FfiTrace :=
  ⟨[.type_free t], if freed = .null then .ok else .assertFail⟩

/-- Classifies the runtime-boundary calls that allocate a new descriptor. -/
def MpiCall.allocates : MpiCall → Bool
  | .type_commit _ => false
  | .type_free _ => false
  | _ => true

/-- Names the descriptor a call allocates, if it allocates one. -/
def MpiCall.allocated : MpiCall → Option Nat
  | .type_contiguous _ _ n => some n
  | .type_vector _ _ _ _ n => some n
  | .type_hvector _ _ _ _ n => some n
  | .type_indexed _ _ _ _ n => some n
  | .type_create_hindexed _ _ _ _ n => some n
  | .type_create_indexed_block _ _ _ _ n => some n
  | .type_create_hindexed_block _ _ _ _ n => some n
  | .type_commit _ => none
  | .type_free _ => none

/-- States that a trace is a pure construction of the descriptor `new`: it
returns normally, it issues exactly one allocating call, its final
runtime-boundary call commits `new`, and every call it issues either
allocates `new` itself or is that commit of `new` — in particular no
pre-existing descriptor is committed, freed or otherwise mutated. -/
def pureConstruction (t : FfiTrace) (new : Nat) : Prop :=
  t.outcome = .ok ∧
  (t.calls.filter MpiCall.allocates).length = 1 ∧
  t.calls.getLast? = some (.type_commit new) ∧
  ∀ c ∈ t.calls, c.allocated = some new ∨ c = .type_commit new

/-- C2: calling `UserDatatype::indexed` or
`UserDatatype::heterogeneous_indexed` with mismatched `blocklengths` and
`displacements` lengths fails with the assertion before any runtime
type-descriptor allocation is performed (no runtime-boundary call is issued);
with equal lengths the assertion passes and construction proceeds (any later
failure is the independent `Count`-width panic, never this assertion). -/
theorem claim_C2 (blocklengths ds : List Count) (da : List Int)
    (oldtype : MPI_Datatype) (new : Nat) :
    (blocklengths.length ≠ ds.length →
      UserDatatype.indexed blocklengths ds oldtype new =
        ⟨[], .assertFail⟩) ∧
    (blocklengths.length = ds.length →
      (UserDatatype.indexed blocklengths ds oldtype new).outcome ≠
        .assertFail) ∧
    (blocklengths.length ≠ da.length →
      UserDatatype.heterogeneous_indexed blocklengths da oldtype new =
        ⟨[], .assertFail⟩) ∧
    (blocklengths.length = da.length →
      (UserDatatype.heterogeneous_indexed blocklengths da oldtype
        new).outcome ≠ .assertFail) := by
  refine ⟨fun h => ?_, fun h => ?_, fun h => ?_, fun h => ?_⟩
  · simp [UserDatatype.indexed, h]
  · simp only [UserDatatype.indexed, if_pos h]
    cases slice_count blocklengths.length <;> simp
  · simp [UserDatatype.heterogeneous_indexed, h]
  · simp only [UserDatatype.heterogeneous_indexed, if_pos h]
    cases slice_count blocklengths.length <;> simp

/-- Witness for C2 at concrete inputs: mismatched lengths `[1,2]` versus `[0]`
abort with the assertion and an empty call trace, while the equal-length call
`[1]` versus `[0]` is not stopped by the assertion. -/
theorem claim_C2_witness :
    UserDatatype.indexed [1, 2] [0] .int32 7 = ⟨[], .assertFail⟩ ∧
    (UserDatatype.indexed [1] [0] .int32 7).outcome ≠ .assertFail ∧
    UserDatatype.heterogeneous_indexed [1, 2] [0] .int32 7 =
      ⟨[], .assertFail⟩ ∧
    (UserDatatype.heterogeneous_indexed [1] [0] .int32 7).outcome ≠
      .assertFail :=
  ⟨(claim_C2 [1, 2] [0] [0] .int32 7).1 (by decide),
   (claim_C2 [1] [0] [0] .int32 7).2.1 rfl,
   (claim_C2 [1, 2] [0] [0] .int32 7).2.2.1 (by decide),
   (claim_C2 [1] [0] [0] .int32 7).2.2.2 rfl⟩

/-- C6: destroying a `UserDatatype` issues exactly one release call
(`MPI_Type_free`) on its handle, and the destructor then checks that the
handle equals the runtime's null-type sentinel: it returns normally exactly
when the post-release handle is the sentinel, and raises the fatal assertion
when it differs. -/
theorem claim_C6 (t : Nat) (freed : MPI_Datatype) :
    (UserDatatype.drop t freed).calls = [.type_free t] ∧
    ((UserDatatype.drop t freed).outcome = .ok ↔ freed = .null) ∧
    (freed ≠ .null → (UserDatatype.drop t freed).outcome = .assertFail) := by
  refine ⟨rfl, ?_, fun h => ?_⟩
  · by_cases h : freed = .null <;> simp [UserDatatype.drop, h]
  · simp [UserDatatype.drop, h]

/-- Witness for C6 at concrete handles: a post-release handle equal to the
sentinel destroys cleanly, a leftover user handle trips the assertion, and in
both cases exactly one free call is issued. -/
theorem claim_C6_witness :
    (UserDatatype.drop 0 .null).calls = [.type_free 0] ∧
    (UserDatatype.drop 0 .null).outcome = .ok ∧
    (UserDatatype.drop 0 (.user 3)).outcome = .assertFail :=
  ⟨(claim_C6 0 .null).1, (claim_C6 0 .null).2.1.mpr rfl,
   (claim_C6 0 (.user 3)).2.2 (by decide)⟩

/-- C7: every `UserDatatype` combinator, called with valid inputs (equal
`blocklengths`/`displacements` lengths where both are taken, and a
displacement table whose length fits the `Count` width), is a pure
construction: it allocates exactly one new runtime descriptor, commits that
descriptor as its last runtime-boundary call before returning, and issues no
call that commits, frees or otherwise mutates any existing datatype. -/
theorem claim_C7 (count blocklength stride : Count) (bstride : Int)
    (oldtype : MPI_Datatype) (new : Nat) (bls ds : List Count)
    (da : List Int) :
    pureConstruction (UserDatatype.contiguous count oldtype new) new ∧
    pureConstruction
      (UserDatatype.vector count blocklength stride oldtype new) new ∧
    pureConstruction
      (UserDatatype.heterogeneous_vector count blocklength bstride oldtype
        new) new ∧
    (bls.length = ds.length → bls.length ≤ countMax →
      pureConstruction (UserDatatype.indexed bls ds oldtype new) new) ∧
    (bls.length = da.length → bls.length ≤ countMax →
      pureConstruction
        (UserDatatype.heterogeneous_indexed bls da oldtype new) new) ∧
    (ds.length ≤ countMax →
      pureConstruction
        (UserDatatype.indexed_block blocklength ds oldtype new) new) ∧
    (da.length ≤ countMax →
      pureConstruction
        (UserDatatype.heterogeneous_indexed_block blocklength da oldtype new)
        new) := by
  refine ⟨?_, ?_, ?_, fun h hle => ?_, fun h hle => ?_, fun hle => ?_,
    fun hle => ?_⟩
  · simp [pureConstruction, UserDatatype.contiguous, MpiCall.allocates,
      MpiCall.allocated, List.filter]
  · simp [pureConstruction, UserDatatype.vector, MpiCall.allocates,
      MpiCall.allocated, List.filter]
  · simp [pureConstruction, UserDatatype.heterogeneous_vector,
      MpiCall.allocates, MpiCall.allocated, List.filter]
  · have hd : ds.length ≤ countMax := h ▸ hle
    simp [pureConstruction, UserDatatype.indexed, slice_count, h, hd,
      MpiCall.allocates, MpiCall.allocated, List.filter]
  · have hd : da.length ≤ countMax := h ▸ hle
    simp [pureConstruction, UserDatatype.heterogeneous_indexed, slice_count,
      h, hd, MpiCall.allocates, MpiCall.allocated, List.filter]
  · simp [pureConstruction, UserDatatype.indexed_block, slice_count, hle,
      MpiCall.allocates, MpiCall.allocated, List.filter]
  · simp [pureConstruction, UserDatatype.heterogeneous_indexed_block,
      slice_count, hle, MpiCall.allocates, MpiCall.allocated, List.filter]

/-- Witness for C7 at concrete inputs: each combinator, at small valid
arguments, performs a pure construction of descriptor 7. -/
theorem claim_C7_witness :
    pureConstruction (UserDatatype.contiguous 3 .int32 7) 7 ∧
    pureConstruction (UserDatatype.vector 3 2 4 .int32 7) 7 ∧
    pureConstruction (UserDatatype.heterogeneous_vector 3 2 8 .int32 7) 7 ∧
    pureConstruction (UserDatatype.indexed [1, 2] [0, 3] .int32 7) 7 ∧
    pureConstruction
      (UserDatatype.heterogeneous_indexed [1, 2] [0, 12] .int32 7) 7 ∧
    pureConstruction (UserDatatype.indexed_block 2 [0, 3] .int32 7) 7 ∧
    pureConstruction
      (UserDatatype.heterogeneous_indexed_block 2 [0, 12] .int32 7) 7 := by
  have h := claim_C7 3 2 4 8 .int32 7 [1, 2] [0, 3] [0, 12]
  exact ⟨h.1, h.2.1, h.2.2.1, h.2.2.2.1 rfl (by decide),
    h.2.2.2.2.1 rfl (by decide), h.2.2.2.2.2.1 (by decide),
    h.2.2.2.2.2.2 (by decide)⟩

/-- Embeds the `Partition` struct: an immutable buffer (represented by its
element count, the only datum the constructor inspects) together with the
per-participant counts and displacements tables. -/
structure Partition where
  bufCount : Count
  counts : List Count
  displs : List Count
deriving DecidableEq

/-- Embeds `Partition::new`: reads `n = buf.count()` and asserts
`counts.iter().zip(displs.iter()).all(|(&c, &d)| c + d <= n)`; on success the
partition is built from the given parts, a failed assertion aborts (`none`). -/
def Partition.new (bufCount : Count) (counts displs : List Count) :
    Option Partition :=
  if (counts.zip displs).all (fun p => decide (p.1 + p.2 ≤ bufCount)) then
    some ⟨bufCount, counts, displs⟩
  else
    none

/-- Embeds the `PartitionMut` struct: like `Partition` but over a mutable
buffer. -/
structure PartitionMut where
  bufCount : Count
  counts : List Count
  displs : List Count
deriving DecidableEq

/-- Embeds `PartitionMut::new`: textually the same bounds assertion as
`Partition::new`, over a mutable buffer. -/
def PartitionMut.new (bufCount : Count) (counts displs : List Count) :
    Option PartitionMut :=
  if (counts.zip displs).all (fun p => decide (p.1 + p.2 ≤ bufCount)) then
    some ⟨bufCount, counts, displs⟩
  else
    none

/-- Characterizes the zipped bounds assertion by positions: it holds exactly
when every index lying within both tables satisfies the bound. -/
lemma zip_all_le_iff (n : Count) (cs ds : List Count) :
    ((cs.zip ds).all (fun p => decide (p.1 + p.2 ≤ n)) = true) ↔
      ∀ i : Nat, i < cs.length → i < ds.length → cs[i]! + ds[i]! ≤ n := by
  rw [List.all_eq_true]
  constructor
  · intro h i hc hd
    have hz : i < (cs.zip ds).length := by
      rw [List.length_zip]
      omega
    have hm := h (cs.zip ds)[i] (List.getElem_mem hz)
    rw [List.getElem_zip] at hm
    rw [getElem!_pos cs i hc, getElem!_pos ds i hd]
    exact of_decide_eq_true hm
  · intro h p hp
    obtain ⟨i, hz, hpi⟩ := List.mem_iff_getElem.mp hp
    have hc : i < cs.length := by
      rw [List.length_zip] at hz
      omega
    have hd : i < ds.length := by
      rw [List.length_zip] at hz
      omega
    rw [List.getElem_zip] at hpi
    subst hpi
    have := h i hc hd
    rw [getElem!_pos cs i hc, getElem!_pos ds i hd] at this
    exact decide_eq_true this

/-- Rewrites success of `Partition.new` as the zipped assertion. -/
lemma partition_new_isSome (n : Count) (cs ds : List Count) :
    (Partition.new n cs ds).isSome =
      (cs.zip ds).all (fun p => decide (p.1 + p.2 ≤ n)) := by
  unfold Partition.new
  split <;> simp_all

/-- Rewrites success of `PartitionMut.new` as the zipped assertion. -/
lemma partitionMut_new_isSome (n : Count) (cs ds : List Count) :
    (PartitionMut.new n cs ds).isSome =
      (cs.zip ds).all (fun p => decide (p.1 + p.2 ≤ n)) := by
  unfold PartitionMut.new
  split <;> simp_all

/-- C1: with counts and displacements tables of one common length (the data
model's shape: one pair per participant), `Partition::new` and
`PartitionMut::new` succeed if and only if every pair keeps
`displs[i] + counts[i]` within the buffer's element count; any violating pair
makes the construction abort on the assertion, before any communication. -/
theorem claim_C1 (n : Count) (counts displs : List Count)
    (hlen : counts.length = displs.length) :
    ((Partition.new n counts displs).isSome ↔
      ∀ i : Nat, i < counts.length → displs[i]! + counts[i]! ≤ n) ∧
    ((PartitionMut.new n counts displs).isSome ↔
      ∀ i : Nat, i < counts.length → displs[i]! + counts[i]! ≤ n) := by
  have key : ((counts.zip displs).all
        (fun p => decide (p.1 + p.2 ≤ n)) = true) ↔
      ∀ i : Nat, i < counts.length → displs[i]! + counts[i]! ≤ n := by
    rw [zip_all_le_iff]
    constructor
    · intro h i hc
      have h2 := h i hc (hlen ▸ hc)
      linarith
    · intro h i hc _
      have h2 := h i hc
      linarith
  constructor
  · rw [partition_new_isSome]
    exact key
  · rw [partitionMut_new_isSome]
    exact key

/-- Witness for C1 at the spec's concrete inputs: with a buffer of count 6,
counts `[2,2,2]` with displacements `[0,2,4]` are accepted and counts
`[2,2,2]` with displacements `[0,2,5]` are rejected, for both constructors. -/
theorem claim_C1_witness :
    (Partition.new 6 [2, 2, 2] [0, 2, 4]).isSome = true ∧
    (Partition.new 6 [2, 2, 2] [0, 2, 5]).isSome = false ∧
    (PartitionMut.new 6 [2, 2, 2] [0, 2, 4]).isSome = true ∧
    (PartitionMut.new 6 [2, 2, 2] [0, 2, 5]).isSome = false := by
  refine ⟨(claim_C1 6 [2, 2, 2] [0, 2, 4] rfl).1.mpr (by decide), ?_,
    (claim_C1 6 [2, 2, 2] [0, 2, 4] rfl).2.mpr (by decide), ?_⟩
  · cases hb : (Partition.new 6 [2, 2, 2] [0, 2, 5]).isSome
    · rfl
    · exact absurd ((claim_C1 6 [2, 2, 2] [0, 2, 5] rfl).1.mp hb 2
        (by decide)) (by decide)
  · cases hb : (PartitionMut.new 6 [2, 2, 2] [0, 2, 5]).isSome
    · rfl
    · exact absurd ((claim_C1 6 [2, 2, 2] [0, 2, 5] rfl).2.mp hb 2
        (by decide)) (by decide)

/-- C10: `Partition::new` and `PartitionMut::new` bounds-check exactly the
pairs up to the length of the shorter table (the `zip` stops there), so they
succeed if and only if every index lying within both tables satisfies the
bound; tables of unequal length are accepted as such and the surplus entries
of the longer table are never checked against the buffer's count. -/
theorem claim_C10 (n : Count) (counts displs : List Count) :
    ((Partition.new n counts displs).isSome ↔
      ∀ i : Nat, i < counts.length → i < displs.length →
        counts[i]! + displs[i]! ≤ n) ∧
    ((PartitionMut.new n counts displs).isSome ↔
      ∀ i : Nat, i < counts.length → i < displs.length →
        counts[i]! + displs[i]! ≤ n) := by
  constructor
  · rw [partition_new_isSome]
    exact zip_all_le_iff n counts displs
  · rw [partitionMut_new_isSome]
    exact zip_all_le_iff n counts displs

/-- Witness for C10 at concrete inputs: with a buffer of count 1, the surplus
count 5 at index 1 of the longer counts table is never checked, so the
unequal-length tables `[1,5]` and `[0]` are accepted by both constructors. -/
theorem claim_C10_witness :
    (Partition.new 1 [1, 5] [0]).isSome = true ∧
    (PartitionMut.new 1 [1, 5] [0]).isSome = true :=
  ⟨(claim_C10 1 [1, 5] [0]).1.mpr (by decide),
   (claim_C10 1 [1, 5] [0]).2.mpr (by decide)⟩

/-- Embeds raw pointers as passed at the runtime boundary: `ptr::null()` /
`ptr::null_mut()` or the address of a buffer's first element. -/
inductive MpiPtr where
  | null
  | addr (a : Nat)
deriving DecidableEq

/-- Embeds what a `Buffer`/`BufferMut` capability exposes to the collective
layer: `pointer()`, `count()` and `as_datatype().as_raw()`. -/
structure BufferSig where
  ptr : MpiPtr
  count : Count
  datatype : MPI_Datatype
deriving DecidableEq

/-- Embeds the topology collaborator behind `Communicator`: the raw
communicator handle and the participant count (`size()`). -/
structure Comm where
  raw : Nat
  size : Count
deriving DecidableEq

/-- Embeds the `Root` capability: a communicator together with the designated
root rank (`root_rank()`). -/
structure RootProc where
  comm : Comm
  root_rank : Count
deriving DecidableEq

/-- Embeds the argument tuple of an `ffi::MPI_Gather` call. -/
structure MPI_Gather_args where
  sendbuf : MpiPtr
  sendcount : Count
  sendtype : MPI_Datatype
  recvbuf : MpiPtr
  recvcount : Count
  recvtype : MPI_Datatype
  root : Count
  comm : Nat
deriving DecidableEq

/-- Embeds the argument tuple of an `ffi::MPI_Scatter` call. -/
structure MPI_Scatter_args where
  sendbuf : MpiPtr
  sendcount : Count
  sendtype : MPI_Datatype
  recvbuf : MpiPtr
  recvcount : Count
  recvtype : MPI_Datatype
  root : Count
  comm : Nat
deriving DecidableEq

/-- Embeds the argument tuple of an `ffi::MPI_Allgather` call. -/
structure MPI_Allgather_args where
  sendbuf : MpiPtr
  sendcount : Count
  sendtype : MPI_Datatype
  recvbuf : MpiPtr
  recvcount : Count
  recvtype : MPI_Datatype
  comm : Nat
deriving DecidableEq

/-- Embeds the argument tuple of an `ffi::MPI_Alltoall` call. -/
structure MPI_Alltoall_args where
  sendbuf : MpiPtr
  sendcount : Count
  sendtype : MPI_Datatype
  recvbuf : MpiPtr
  recvcount : Count
  recvtype : MPI_Datatype
  comm : Nat
deriving DecidableEq

/-- Embeds `GatherInto::gather_into`: an absent receive buffer (`None`, on
non-root participants) contributes the triplet
`(ptr::null_mut(), 0, u8::equivalent_datatype())`; a present one contributes
its pointer, its count divided (`i32` division, truncation) by the
communicator size, and its datatype. Rust `/` on `i32` is `Int.tdiv`. -/
def gather_into (self : RootProc) (sendbuf : BufferSig)
    (recvbuf : Option BufferSig) : MPI_Gather_args :=
  let r := match recvbuf with
    | none => (MpiPtr.null, (0 : Count), equivalent_datatype .u8)
    | some x => (x.ptr, Int.tdiv x.count self.comm.size, x.datatype)
  ⟨sendbuf.ptr, sendbuf.count, sendbuf.datatype, r.1, r.2.1, r.2.2,
    self.root_rank, self.comm.raw⟩

/-- Embeds `ScatterInto::scatter_into`: an absent send buffer (`None`, on
non-root participants) contributes `(ptr::null(), 0,
u8::equivalent_datatype())`; a present one contributes its pointer, its count
divided by the communicator size, and its datatype. -/
def scatter_into (self : RootProc) (sendbuf : Option BufferSig)
    (recvbuf : BufferSig) : MPI_Scatter_args :=
  let s := match sendbuf with
    | none => (MpiPtr.null, (0 : Count), equivalent_datatype .u8)
    | some x => (x.ptr, Int.tdiv x.count self.comm.size, x.datatype)
  ⟨s.1, s.2.1, s.2.2, recvbuf.ptr, recvbuf.count, recvbuf.datatype,
    self.root_rank, self.comm.raw⟩

/-- Embeds `AllGatherInto::all_gather_into`: the send buffer is forwarded
whole, the receive count is the receive buffer's count divided by the
communicator size. -/
def all_gather_into (self : Comm) (sendbuf recvbuf : BufferSig) :
    MPI_Allgather_args :=
  ⟨sendbuf.ptr, sendbuf.count, sendbuf.datatype, recvbuf.ptr,
    Int.tdiv recvbuf.count self.size, recvbuf.datatype, self.raw⟩

/-- Embeds `AllToAllInto::all_to_all_into`: both counts are the respective
buffer's count divided by the communicator size. -/
def all_to_all_into (self : Comm) (sendbuf recvbuf : BufferSig) :
    MPI_Alltoall_args :=
  ⟨sendbuf.ptr, Int.tdiv sendbuf.count self.size, sendbuf.datatype,
    recvbuf.ptr, Int.tdiv recvbuf.count self.size, recvbuf.datatype,
    self.raw⟩

/-- C4: wherever a collective divides a buffer into uniform per-participant
segments — the receive buffer of `gather_into` and `all_gather_into`, the
send buffer of `scatter_into`, and both buffers of `all_to_all_into` — the
per-participant element count forwarded to the runtime boundary is the
buffer's `count()` integer-divided by the participant count. -/
theorem claim_C4 (r : RootProc) (c : Comm) (s x rb sb : BufferSig) :
    (gather_into r s (some x)).recvcount = Int.tdiv x.count r.comm.size ∧
    (all_gather_into c s rb).recvcount = Int.tdiv rb.count c.size ∧
    (scatter_into r (some sb) rb).sendcount = Int.tdiv sb.count r.comm.size ∧
    (all_to_all_into c s rb).sendcount = Int.tdiv s.count c.size ∧
    (all_to_all_into c s rb).recvcount = Int.tdiv rb.count c.size :=
  ⟨rfl, rfl, rfl, rfl, rfl⟩

/-- C5: with an absent root-only buffer (`None`), `gather_into` and
`scatter_into` never touch it: the triplet forwarded in its place is a null
pointer, a zero count, and the `u8` placeholder datatype. -/
theorem claim_C5 (r : RootProc) (s rb : BufferSig) :
    (gather_into r s none).recvbuf = .null ∧
    (gather_into r s none).recvcount = 0 ∧
    (gather_into r s none).recvtype = equivalent_datatype .u8 ∧
    (scatter_into r none rb).sendbuf = .null ∧
    (scatter_into r none rb).sendcount = 0 ∧
    (scatter_into r none rb).sendtype = equivalent_datatype .u8 :=
  ⟨rfl, rfl, rfl, rfl, rfl, rfl⟩

/-- Embeds raw MPI request handles: the sentinel `RSMPI_REQUEST_NULL` or an
in-flight request. -/
inductive MPI_Request where
  | null
  | active (id : Nat)
deriving DecidableEq

/-- Embeds the `BarrierRequest` wrapper around one raw request handle. -/
structure BarrierRequest where
  raw : MPI_Request
deriving DecidableEq

/-- Embeds `ImmediateBarrier::immediate_barrier`: wraps the request handle
that `MPI_Ibarrier` wrote into the output parameter. -/
def immediate_barrier (req : MPI_Request) : BarrierRequest :=
  ⟨req⟩

/-- Embeds `impl Drop for BarrierRequest`:
`assert!(self.raw() == ffi::RSMPI_REQUEST_NULL)` at destruction. -/
def BarrierRequest.drop (r : BarrierRequest) : Outcome :=
  if r.raw = .null then .ok else .assertFail

/-- C8: a request returned by `immediate_barrier` destroys cleanly exactly
when its handle equals the null-request sentinel at destruction time, and a
handle still differing from the sentinel (operation pending) makes the
destructor raise the fatal assertion. The handle value `h` is the wrapper's
state at destruction (completion collaborators may have retired it). -/
theorem claim_C8 (h : MPI_Request) :
    ((immediate_barrier h).drop = .ok ↔ h = .null) ∧
    (h ≠ .null → (immediate_barrier h).drop = .assertFail) := by
  constructor
  · by_cases hn : h = .null <;>
      simp [immediate_barrier, BarrierRequest.drop, hn]
  · intro hn
    simp [immediate_barrier, BarrierRequest.drop, hn]

/-- Witness for C8 at concrete handles: the retired (null) handle destroys
cleanly, a still-pending handle trips the assertion. -/
theorem claim_C8_witness :
    (immediate_barrier .null).drop = .ok ∧
    (immediate_barrier (.active 0)).drop = .assertFail :=
  ⟨(claim_C8 .null).1.mpr rfl, (claim_C8 (.active 0)).2 (by decide)⟩

/-- Modelled from the spec: the data movement of `MPI_Gather`, which is
performed by the external runtime (the transport is not under src/): the root
receive buffer becomes the rank-order concatenation of every participant's
send buffer. -/
def gatherData (sends : List (List Int)) : List Int :=
  sends.flatten

/-- Modelled from the spec: the data movement of `MPI_Scatter`, which is
performed by the external runtime (not under src/): the root send buffer is
divided into `size` uniform segments of `count / size` elements — the
per-participant count `scatter_into` forwards — and segment `i` is delivered
to participant `i`. -/
def scatterData (size : Nat) (buf : List Int) (i : Nat) : List Int :=
  (buf.drop (i * (buf.length / size))).take (buf.length / size)

/-- Computes the length of a concatenation of uniform-length lists. -/
lemma flatten_uniform_length (m : Nat) (l : List (List Int))
    (hu : ∀ s ∈ l, s.length = m) : l.flatten.length = l.length * m := by
  induction l with
  | nil => simp
  | cons s t ih =>
    have hs : s.length = m := hu s (List.mem_cons_self s t)
    have ht : ∀ x ∈ t, x.length = m := fun x hx =>
      hu x (List.mem_cons_of_mem s hx)
    simp only [List.flatten_cons, List.length_append, List.length_cons,
      hs, ih ht]
    ring

/-- Extracts segment `i` of the concatenation of uniform-length lists. -/
lemma flatten_uniform_take_drop (m : Nat) (l : List (List Int)) :
    (∀ s ∈ l, s.length = m) → ∀ i : Nat, i < l.length →
      (l.flatten.drop (i * m)).take m = l[i]! := by
  induction l with
  | nil =>
    intro _ i hi
    simp at hi
  | cons s t ih =>
    intro hu i hi
    have hs : s.length = m := hu s (List.mem_cons_self s t)
    have ht : ∀ x ∈ t, x.length = m := fun x hx =>
      hu x (List.mem_cons_of_mem s hx)
    cases i with
    | zero =>
      simp only [Nat.zero_mul, List.drop_zero, List.flatten_cons]
      rw [← hs, List.take_left, getElem!_pos (s :: t) 0 (by simp)]
      simp
    | succ i =>
      have hi2 : i < t.length := by
        simpa [Nat.succ_lt_succ_iff] using hi
      have hstep : (i + 1) * m = s.length + i * m := by
        rw [hs]
        ring
      rw [List.flatten_cons, hstep, List.drop_append, ih ht i hi2,
        getElem!_pos t i hi2,
        getElem!_pos (s :: t) (i + 1) (by simpa using hi)]
      simp

/-- C9: for P participants (P in {1, 2, 4}) each contributing a send buffer
of uniform length m (m in {1, 3}), gathering every contribution to the root
and scattering the gathered buffer back — with the per-participant count the
code derives by integer division — returns to every participant exactly its
original contribution. -/
theorem claim_C9 (P m : Nat) (sends : List (List Int))
    (hP : P = 1 ∨ P = 2 ∨ P = 4) (_hm : m = 1 ∨ m = 3)
    (hlen : sends.length = P) (hu : ∀ s ∈ sends, s.length = m) :
    ∀ i : Nat, i < P → scatterData P (gatherData sends) i = sends[i]! := by
  intro i hi
  have hP0 : 0 < P := by
    rcases hP with h | h | h <;> omega
  simp only [scatterData, gatherData]
  rw [flatten_uniform_length m sends hu, hlen,
    Nat.mul_div_cancel_left m hP0]
  exact flatten_uniform_take_drop m sends hu i (by omega)

/-- Witness for C9 at P = 2 participants with payload length 3: gathering
`[1,2,3]` and `[4,5,6]` and scattering the result returns each participant
its own contribution. -/
theorem claim_C9_witness :
    scatterData 2 (gatherData [[1, 2, 3], [4, 5, 6]]) 0 =
      ([[1, 2, 3], [4, 5, 6]] : List (List Int))[0]! ∧
    scatterData 2 (gatherData [[1, 2, 3], [4, 5, 6]]) 1 =
      ([[1, 2, 3], [4, 5, 6]] : List (List Int))[1]! :=
  ⟨claim_C9 2 3 [[1, 2, 3], [4, 5, 6]] (Or.inr (Or.inl rfl)) (Or.inr rfl)
      rfl (by decide) 0 (by decide),
   claim_C9 2 3 [[1, 2, 3], [4, 5, 6]] (Or.inr (Or.inl rfl)) (Or.inr rfl)
      rfl (by decide) 1 (by decide)⟩
